import Mathlib

/-!
Verification of the MUGNet evaluation core against its specification.

The Python sources are shallowly embedded: pure functions become Lean
functions on `String`/`List`/`ℚ`, file and network access become explicit
parameters (`Option String` for a file that may be missing, `Nat → SvcResp`
for the behaviour of the external answering service), and machine floats
become exact rationals.  Wall-clock timestamps and sleep durations carried
by the Python records are dropped: no claim refers to them.
-/

/-! ## Python string primitives

Character classes model the ASCII behaviour of Python's `re` module:
`isWordChar` is `\w` (alphanumerics and underscore) and `isSpaceChar` is
`\s` (space, tab, newline, carriage return, form feed, vertical tab).
-/

def isWordChar (c : Char) : Bool :=
  c.isAlphanum || c = '_'

def isSpaceChar (c : Char) : Bool :=
  c = ' ' || c = '\t' || c = '\n' || c = '\r' || c = '\x0b' || c = '\x0c'

/-- Models Python `s.lower()` (ASCII case folding). -/
def pyLower (s : String) : String :=
  String.mk (s.data.map Char.toLower)

/-- Models `re.sub(r'[^\w\s]', '', s)`: delete every character that is
neither a word character nor whitespace. -/
def cleanNonWord (s : String) : String :=
  String.mk (s.data.filter (fun c => isWordChar c || isSpaceChar c))

/-- Models Python `s.strip()`: drop leading and trailing whitespace. -/
def pyStrip (s : String) : String :=
  String.mk (((s.data.dropWhile isSpaceChar).reverse.dropWhile isSpaceChar).reverse)

def pySplitWsAux : List Char → List Char → List String
  | acc, [] => if acc.isEmpty then [] else [String.mk acc.reverse]
  | acc, c :: cs =>
      if isSpaceChar c then
        if acc.isEmpty then pySplitWsAux [] cs
        else String.mk acc.reverse :: pySplitWsAux [] cs
      else pySplitWsAux (c :: acc) cs

/-- Models Python `s.split()` with no argument: split on runs of
whitespace, never producing empty words. -/
def pySplitWs (s : String) : List String :=
  pySplitWsAux [] s.data

def listStarts : List Char → List Char → Bool
  | [], _ => true
  | _ :: _, [] => false
  | a :: as, b :: bs => a = b && listStarts as bs

def listHasSub (needle : List Char) : List Char → Bool
  | [] => needle.isEmpty
  | c :: cs => listStarts needle (c :: cs) || listHasSub needle cs

/-- Models the Python substring test `needle in hay`. -/
def strIn (needle hay : String) : Bool :=
  listHasSub needle.data hay.data

/-- Strip a literal prefix from a character list, returning the remainder
on success. -/
def chompLit : List Char → List Char → Option (List Char)
  | [], l => some l
  | _ :: _, [] => none
  | a :: as, b :: bs => if a = b then chompLit as bs else none

structure Message where
  speaker : String
  content : String
deriving DecidableEq

/-- Renders one message the way both `get_full_conversation_text` and the
chunk indexer do: `"speaker: content"`. -/
def messageLine (m : Message) : String :=
  m.speaker ++ ": " ++ m.content

/-- Split a line at its first colon, as `line.split(':', 1)` does. -/
def splitFirstColon : List Char → List Char × List Char
  | [] => ([], [])
  | c :: rest =>
      if c = ':' then ([], rest)
      else
        let p := splitFirstColon rest
        (c :: p.1, p.2)

/-- Models one iteration of the parsing loop in
`ConversationData.load_conversation`: strip the line, keep it only when it
contains a colon and does not start with `#`. -/
def parseLine (l : String) : Option Message :=
  let t := pyStrip l
  if t.data.contains ':' && !(listStarts "#".data t.data) then
    let p := splitFirstColon t.data
    some ⟨pyStrip (String.mk p.1), pyStrip (String.mk p.2)⟩
  else none

/-- Split on newline characters keeping empty pieces, as Python
`s.split('\n')` does. -/
def splitOnNewline : List Char → List Char → List String
  | acc, [] => [String.mk acc.reverse]
  | acc, c :: cs =>
      if c = '\n' then String.mk acc.reverse :: splitOnNewline [] cs
      else splitOnNewline (c :: acc) cs

/-- The line list `content.strip().split('\n')`. -/
def pyLines (content : String) : List String :=
  splitOnNewline [] (pyStrip content).data

/-- Models the parsing part of `load_conversation`:
`content.strip().split('\n')`, then the per-line loop. -/
def parseConversation (content : String) : List Message :=
  (pyLines content).filterMap parseLine

/-- Models `load_conversation` as a whole.  The file read is the only
effect: `none` stands for a missing/unreadable file, whose exception the
Python code catches, prints, and converts to `[]`. -/
def loadConversation : Option String → List Message
  | none => []
  | some content => parseConversation content

/-! ## Chunk index (`Architecture2_LLM_RAG.index_conversation`) -/

structure Chunk where
  id : Nat
  text : String
  messages : List Message
  start_index : Nat
  end_index : Nat
deriving DecidableEq

instance : Inhabited Chunk :=
  ⟨⟨0, "", [], 0, 0⟩⟩

/-- The chunk built at start position `i`: messages `[i : i + chunkSize]`,
their rendered text, and the index range recorded by the source. -/
def mkChunkAt (msgs : List Message) (chunkSize i : Nat) : Chunk :=
  { id := i
    text := String.intercalate "\n" (((msgs.drop i).take chunkSize).map messageLine)
    messages := (msgs.drop i).take chunkSize
    start_index := i
    end_index := min (i + chunkSize) msgs.length }

/-- Number of iterations of `range(0, n, step)`, i.e. `⌈n / step⌉`. -/
def numChunks (n step : Nat) : Nat :=
  (n + step - 1) / step

/-- The start positions `range(0, len(messages), chunk_size - overlap)`. -/
def chunkStarts (n step : Nat) : List Nat :=
  List.range' 0 (numChunks n step) step

/-- Models the loop body of `index_conversation`, generalised over the
chunk parameters (the source fixes `chunk_size = 10`, `overlap = 3`). -/
def buildChunks (msgs : List Message) (chunkSize overlap : Nat) : List Chunk :=
  (chunkStarts msgs.length (chunkSize - overlap)).map (mkChunkAt msgs chunkSize)

/-- Models `index_conversation` with the source's fixed parameters. -/
def indexConversation (msgs : List Message) : List Chunk :=
  buildChunks msgs 10 3

/-- Size of the intersection of the two chunks' index ranges. -/
def overlapCount (c d : Chunk) : Nat :=
  min c.end_index d.end_index - max c.start_index d.start_index

/-- The overlap clause of claim C1: every pair of consecutive chunks other
than the pair containing the final chunk shares exactly `o` utterances. -/
def consecShareExactly (chs : List Chunk) (o : Nat) : Prop :=
  ∀ k < chs.length, k + 2 < chs.length →
    overlapCount (chs.getD k default) (chs.getD (k + 1) default) = o

/-! ## Claim C1: chunk coverage and overlap -/

lemma length_buildChunks (msgs : List Message) (chunkSize overlap : Nat) :
    (buildChunks msgs chunkSize overlap).length = numChunks msgs.length (chunkSize - overlap) := by
  simp [buildChunks, chunkStarts]

lemma start_lt_of_lt_numChunks {n s k : Nat} (hs : 0 < s) (hk : k < numChunks n s) :
    s * k < n := by
  have h1 : (n + s - 1) / s * s ≤ n + s - 1 := Nat.div_mul_le_self _ s
  have h3 : s * (k + 1) ≤ s * ((n + s - 1) / s) :=
    Nat.mul_le_mul_left s hk
  have h4 : 0 < n := by
    rcases Nat.eq_zero_or_pos n with h | h
    · subst h
      simp only [numChunks, Nat.zero_add] at hk
      have hz : (s - 1) / s = 0 := Nat.div_eq_of_lt (by omega)
      omega
    · exact h
  have e1 : s * (k + 1) = s * k + s := Nat.mul_succ s k
  have e2 : s * ((n + s - 1) / s) = (n + s - 1) / s * s := Nat.mul_comm _ _
  omega

lemma buildChunks_getD_start {msgs : List Message} {chunkSize overlap k : Nat}
    (hk : k < numChunks msgs.length (chunkSize - overlap)) :
    ((buildChunks msgs chunkSize overlap).getD k default).start_index = (chunkSize - overlap) * k := by
  have hk' : k < (buildChunks msgs chunkSize overlap).length := by
    rw [length_buildChunks]; exact hk
  rw [List.getD_eq_getElem _ _ hk']
  simp [buildChunks, chunkStarts, mkChunkAt, List.getElem_map, List.getElem_range']

lemma buildChunks_getD_end {msgs : List Message} {chunkSize overlap k : Nat}
    (hk : k < numChunks msgs.length (chunkSize - overlap)) :
    ((buildChunks msgs chunkSize overlap).getD k default).end_index
      = min ((chunkSize - overlap) * k + chunkSize) msgs.length := by
  have hk' : k < (buildChunks msgs chunkSize overlap).length := by
    rw [length_buildChunks]; exact hk
  rw [List.getD_eq_getElem _ _ hk']
  simp [buildChunks, chunkStarts, mkChunkAt, List.getElem_map, List.getElem_range']

/-- C1 (amended): for every utterance sequence and chunk parameters
`overlap < chunk_size`, the chunk index ranges cover `[0, N)` with no gaps
(each index is inside some chunk, no chunk spills past `N`, and each
chunk starts after, but no later than the end of, its predecessor); and
when additionally `2 * overlap ≤ chunk_size` — as with the source's fixed
`10`/`3` — every pair of consecutive chunks other than the pair containing
the final chunk shares exactly `overlap` utterances. -/
theorem c1_amended (msgs : List Message) (chunkSize overlap : Nat) (hco : overlap < chunkSize) :
    (∀ j < msgs.length, ∃ c ∈ buildChunks msgs chunkSize overlap,
        c.start_index ≤ j ∧ j < c.end_index)
    ∧ (∀ c ∈ buildChunks msgs chunkSize overlap, c.end_index ≤ msgs.length)
    ∧ (∀ k, k + 1 < (buildChunks msgs chunkSize overlap).length →
        ((buildChunks msgs chunkSize overlap).getD k default).start_index <
          ((buildChunks msgs chunkSize overlap).getD (k + 1) default).start_index ∧
        ((buildChunks msgs chunkSize overlap).getD (k + 1) default).start_index ≤
          ((buildChunks msgs chunkSize overlap).getD k default).end_index)
    ∧ (2 * overlap ≤ chunkSize → consecShareExactly (buildChunks msgs chunkSize overlap) overlap) := by
  have hs : 0 < chunkSize - overlap := by omega
  refine ⟨?_, ?_, ?_, ?_⟩
  · intro j hj
    have hn : 0 < msgs.length := by omega
    have hk : j / (chunkSize - overlap) < numChunks msgs.length (chunkSize - overlap) := by
      have e1 : numChunks msgs.length (chunkSize - overlap)
          = (msgs.length - 1) / (chunkSize - overlap) + 1 := by
        unfold numChunks
        rw [show msgs.length + (chunkSize - overlap) - 1
            = (msgs.length - 1) + (chunkSize - overlap) by omega,
          Nat.add_div_right _ hs]
      have e2 : j / (chunkSize - overlap) ≤ (msgs.length - 1) / (chunkSize - overlap) :=
        Nat.div_le_div_right (by omega)
      omega
    refine ⟨mkChunkAt msgs chunkSize ((chunkSize - overlap) * (j / (chunkSize - overlap))), ?_, ?_, ?_⟩
    · simp only [buildChunks, List.mem_map, chunkStarts]
      exact ⟨(chunkSize - overlap) * (j / (chunkSize - overlap)),
        List.mem_range'.mpr ⟨j / (chunkSize - overlap), hk, (Nat.zero_add _).symm⟩, rfl⟩
    · have h1 : j / (chunkSize - overlap) * (chunkSize - overlap) ≤ j := Nat.div_mul_le_self j _
      have e1 : (chunkSize - overlap) * (j / (chunkSize - overlap))
          = j / (chunkSize - overlap) * (chunkSize - overlap) := Nat.mul_comm _ _
      simp only [mkChunkAt]
      omega
    · have hmod := Nat.mod_add_div j (chunkSize - overlap)
      have hmlt : j % (chunkSize - overlap) < chunkSize - overlap := Nat.mod_lt j hs
      simp only [mkChunkAt]
      refine Nat.lt_min.mpr ⟨by omega, hj⟩
  · intro c hc
    simp only [buildChunks, List.mem_map] at hc
    obtain ⟨i, _, rfl⟩ := hc
    simp only [mkChunkAt]
    exact Nat.min_le_right _ _
  · intro k hk1
    rw [length_buildChunks] at hk1
    have hk : k < numChunks msgs.length (chunkSize - overlap) := by omega
    rw [buildChunks_getD_start hk, buildChunks_getD_start hk1, buildChunks_getD_end hk]
    have hlt : (chunkSize - overlap) * (k + 1) < msgs.length := start_lt_of_lt_numChunks hs hk1
    have e1 : (chunkSize - overlap) * (k + 1) = (chunkSize - overlap) * k + (chunkSize - overlap) :=
      Nat.mul_succ _ _
    constructor
    · omega
    · refine Nat.le_min.mpr ⟨by omega, by omega⟩
  · intro h2O k hklen hk2
    rw [length_buildChunks] at hklen hk2
    have hk : k < numChunks msgs.length (chunkSize - overlap) := hklen
    have hk1 : k + 1 < numChunks msgs.length (chunkSize - overlap) := by omega
    unfold overlapCount
    rw [buildChunks_getD_start hk, buildChunks_getD_start hk1,
      buildChunks_getD_end hk, buildChunks_getD_end hk1]
    have hlt : (chunkSize - overlap) * (k + 2) < msgs.length := start_lt_of_lt_numChunks hs hk2
    have e1 : (chunkSize - overlap) * (k + 1) = (chunkSize - overlap) * k + (chunkSize - overlap) :=
      Nat.mul_succ _ _
    have e2 : (chunkSize - overlap) * (k + 2) = (chunkSize - overlap) * (k + 1) + (chunkSize - overlap) :=
      Nat.mul_succ _ _
    omega

def msgsOf (n : Nat) : List Message :=
  List.replicate n ⟨"Emma", "hi"⟩

/-- C1 counterexample: with 6 utterances, `chunk_size = 4` and
`overlap = 3`, the chunks are `[0,4) [1,5) [2,6) [3,6) [4,6) [5,6)`; the
consecutive pair at positions 3 and 4 — neither of which is the final
chunk — shares only 2 utterances, not `overlap = 3`.  So the claim as
stated fails for general parameters. -/
theorem c1_counterexample : ¬ consecShareExactly (buildChunks (msgsOf 6) 4 3) 3 := by
  intro h
  have h3 := h 3 (by decide) (by decide)
  exact absurd h3 (by decide)

/-- C1 witness: the amended overlap clause evaluated at a concrete input
(15 utterances with the source's parameters 10/3). -/
theorem c1_witness : consecShareExactly (buildChunks (msgsOf 15) 10 3) 3 :=
  (c1_amended (msgsOf 15) 10 3 (by decide)).2.2.2 (by decide)
/-! ## Claim C2: retrieval (`retrieve_relevant_chunks`) -/

def pyWords (s : String) : List String :=
  pySplitWs (pyLower s)

/-- Models `len(set(question.lower().split()) & set(chunk_text.lower().split()))`:
the number of distinct question words that occur among the chunk words. -/
def chunkScore (question : String) (c : Chunk) : Nat :=
  (((pyWords question).dedup).filter (fun w => (pyWords c.text).contains w)).length

/-- One insertion step of a stable descending sort by score: a later
element passes every earlier element of at least its score, matching the
stability guarantee of Python's `list.sort(key=..., reverse=True)`. -/
def insertByScore (x : Nat × Chunk) : List (Nat × Chunk) → List (Nat × Chunk)
  | [] => [x]
  | y :: ys => if y.1 ≤ x.1 then x :: y :: ys else y :: insertByScore x ys

def sortByScoreDesc : List (Nat × Chunk) → List (Nat × Chunk)
  | [] => []
  | x :: xs => insertByScore x (sortByScoreDesc xs)

/-- Models `retrieve_relevant_chunks`: score every chunk, stable-sort by
descending score, return the first `top_k` chunks. -/
def retrieveRelevantChunks (chunks : List Chunk) (question : String) (topK : Nat) : List Chunk :=
  ((sortByScoreDesc (chunks.map (fun c => (chunkScore question c, c)))).take topK).map Prod.snd

/-- The retrieval order claimed by C2: strictly higher score first, ties
broken by ascending chunk id. -/
def chunkRank (question : String) (a b : Chunk) : Prop :=
  chunkScore question b < chunkScore question a
    ∨ (chunkScore question a = chunkScore question b ∧ a.id < b.id)

def pairRank (a b : Nat × Chunk) : Prop :=
  b.1 < a.1 ∨ (a.1 = b.1 ∧ a.2.id < b.2.id)

lemma insertByScore_perm (x : Nat × Chunk) (l : List (Nat × Chunk)) :
    (insertByScore x l).Perm (x :: l) := by
  induction l with
  | nil => rfl
  | cons y ys ih =>
      by_cases h : y.1 ≤ x.1
      · simp [insertByScore, h]
      · simp only [insertByScore, h, if_false]
        exact (ih.cons y).trans (List.Perm.swap x y ys)

lemma sortByScoreDesc_perm (l : List (Nat × Chunk)) : (sortByScoreDesc l).Perm l := by
  induction l with
  | nil => rfl
  | cons x xs ih =>
      exact (insertByScore_perm x (sortByScoreDesc xs)).trans (ih.cons x)

lemma insertByScore_pairwise {x : Nat × Chunk} {l : List (Nat × Chunk)}
    (hl : l.Pairwise pairRank) (hx : ∀ y ∈ l, x.2.id < y.2.id) :
    (insertByScore x l).Pairwise pairRank := by
  induction l with
  | nil => simp [insertByScore, List.pairwise_cons]
  | cons y ys ih =>
      rw [List.pairwise_cons] at hl
      by_cases h : y.1 ≤ x.1
      · simp only [insertByScore, h, if_true]
        refine List.Pairwise.cons ?_ (List.Pairwise.cons hl.1 hl.2)
        intro z hz
        rcases List.mem_cons.mp hz with rfl | hz'
        · rcases Nat.lt_or_ge z.1 x.1 with hlt | hge
          · exact Or.inl hlt
          · exact Or.inr ⟨Nat.le_antisymm hge h, hx z (List.mem_cons_self z ys)⟩
        · rcases hl.1 z hz' with hlt | ⟨heq, _⟩
          · exact Or.inl (Nat.lt_of_lt_of_le hlt h)
          · rcases Nat.lt_or_ge z.1 x.1 with hlt | hge
            · exact Or.inl hlt
            · exact Or.inr ⟨Nat.le_antisymm hge (heq ▸ h),
                hx z (List.mem_cons_of_mem y hz')⟩
      · simp only [insertByScore, h, if_false]
        refine List.Pairwise.cons ?_ (ih hl.2 (fun z hz => hx z (List.mem_cons_of_mem y hz)))
        intro z hz
        rcases List.mem_cons.mp ((insertByScore_perm x ys).mem_iff.mp hz) with rfl | hz'
        · exact Or.inl (by omega)
        · exact hl.1 z hz'

lemma sortByScoreDesc_pairwise {l : List (Nat × Chunk)}
    (hl : l.Pairwise (fun a b => a.2.id < b.2.id)) :
    (sortByScoreDesc l).Pairwise pairRank := by
  induction l with
  | nil => simp [sortByScoreDesc]
  | cons x xs ih =>
      rw [List.pairwise_cons] at hl
      refine insertByScore_pairwise (ih hl.2) ?_
      intro y hy
      exact hl.1 y ((sortByScoreDesc_perm xs).mem_iff.mp hy)

lemma sortByScoreDesc_score_eq {question : String} {chunks : List Chunk}
    {p : Nat × Chunk}
    (hp : p ∈ sortByScoreDesc (chunks.map (fun c => (chunkScore question c, c)))) :
    p.1 = chunkScore question p.2 := by
  have hp' := (sortByScoreDesc_perm _).mem_iff.mp hp
  rw [List.mem_map] at hp'
  obtain ⟨c, _, rfl⟩ := hp'
  rfl

lemma indexConversation_ids_ascending (msgs : List Message) :
    (indexConversation msgs).Pairwise (fun a b => a.id < b.id) := by
  have h : (chunkStarts msgs.length 7).Pairwise (· < ·) :=
    List.pairwise_lt_range' 0 _ 7 (by omega)
  have he : indexConversation msgs = (chunkStarts msgs.length 7).map (mkChunkAt msgs 10) := rfl
  rw [he, List.pairwise_map]
  exact h.imp (fun hab => hab)

lemma map_snd_scored (question : String) (l : List Chunk) :
    (l.map (fun c => (chunkScore question c, c))).map Prod.snd = l := by
  induction l with
  | nil => rfl
  | cons a as ih => simp [ih]

/-- C2: `retrieve_relevant_chunks` on a built chunk index returns the
`top_k` highest-scoring chunks: the result has `min top_k (number of
chunks)` elements (so all chunks when fewer than `top_k` exist), is
ordered by descending score with ties broken by ascending chunk id (the
earlier chunk wins), every returned chunk scores at least as high as
every chunk left out, and the call is deterministic. -/
theorem c2_retrieve (msgs : List Message) (question : String) (topK : Nat) :
    (retrieveRelevantChunks (indexConversation msgs) question topK).length
        = min topK (indexConversation msgs).length
    ∧ (retrieveRelevantChunks (indexConversation msgs) question topK).Pairwise (chunkRank question)
    ∧ (∃ rest, (retrieveRelevantChunks (indexConversation msgs) question topK ++ rest).Perm
          (indexConversation msgs)
        ∧ ∀ a ∈ retrieveRelevantChunks (indexConversation msgs) question topK, ∀ b ∈ rest,
            chunkScore question b ≤ chunkScore question a)
    ∧ ((indexConversation msgs).length ≤ topK →
        (retrieveRelevantChunks (indexConversation msgs) question topK).Perm (indexConversation msgs))
    ∧ retrieveRelevantChunks (indexConversation msgs) question topK
        = retrieveRelevantChunks (indexConversation msgs) question topK := by
  have hids : ((indexConversation msgs).map (fun c => (chunkScore question c, c))).Pairwise
      (fun a b => a.2.id < b.2.id) := by
    rw [List.pairwise_map]
    exact (indexConversation_ids_ascending msgs).imp (fun hab => hab)
  have hsorted := sortByScoreDesc_pairwise hids
  have hperm := sortByScoreDesc_perm ((indexConversation msgs).map (fun c => (chunkScore question c, c)))
  have hlen : (sortByScoreDesc ((indexConversation msgs).map (fun c => (chunkScore question c, c)))).length
      = (indexConversation msgs).length := by
    rw [hperm.length_eq, List.length_map]
  have hsnd : ((sortByScoreDesc ((indexConversation msgs).map (fun c => (chunkScore question c, c)))).map Prod.snd).Perm
      (indexConversation msgs) := by
    have h1 := hperm.map Prod.snd
    have h2 : (((indexConversation msgs).map (fun c => (chunkScore question c, c))).map Prod.snd)
        = indexConversation msgs := map_snd_scored question _
    rw [h2] at h1
    exact h1
  refine ⟨?_, ?_, ?_, ?_, rfl⟩
  · rw [retrieveRelevantChunks, List.length_map, List.length_take, hlen]
  · rw [retrieveRelevantChunks, List.pairwise_map]
    have htake : ((sortByScoreDesc ((indexConversation msgs).map (fun c => (chunkScore question c, c)))).take topK).Pairwise pairRank :=
      hsorted.sublist (List.take_sublist topK _)
    refine htake.imp_of_mem ?_
    intro a b ha hb hab
    have ea := sortByScoreDesc_score_eq ((List.take_sublist topK _).mem ha)
    have eb := sortByScoreDesc_score_eq ((List.take_sublist topK _).mem hb)
    rcases hab with hlt | ⟨heq, hid⟩
    · exact Or.inl (by rw [← ea, ← eb]; exact hlt)
    · exact Or.inr ⟨by rw [← ea, ← eb]; exact heq, hid⟩
  · refine ⟨((sortByScoreDesc ((indexConversation msgs).map (fun c => (chunkScore question c, c)))).drop topK).map Prod.snd, ?_, ?_⟩
    · have he : retrieveRelevantChunks (indexConversation msgs) question topK
            ++ ((sortByScoreDesc ((indexConversation msgs).map (fun c => (chunkScore question c, c)))).drop topK).map Prod.snd
          = (sortByScoreDesc ((indexConversation msgs).map (fun c => (chunkScore question c, c)))).map Prod.snd := by
        rw [retrieveRelevantChunks, ← List.map_append, List.take_append_drop]
      rw [he]
      exact hsnd
    · intro a ha b hb
      rw [retrieveRelevantChunks, List.mem_map] at ha
      rw [List.mem_map] at hb
      obtain ⟨pa, hpa, rfl⟩ := ha
      obtain ⟨pb, hpb, rfl⟩ := hb
      have hsplit : (List.take topK (sortByScoreDesc ((indexConversation msgs).map
            (fun c => (chunkScore question c, c))))
          ++ List.drop topK (sortByScoreDesc ((indexConversation msgs).map
            (fun c => (chunkScore question c, c))))).Pairwise pairRank := by
        rw [List.take_append_drop]
        exact hsorted
      have hrank : pairRank pa pb := (List.pairwise_append.mp hsplit).2.2 pa hpa pb hpb
      have ea := sortByScoreDesc_score_eq ((List.take_sublist topK _).mem hpa)
      have eb := sortByScoreDesc_score_eq ((List.drop_sublist topK _).mem hpb)
      rcases hrank with hlt | ⟨heq, _⟩
      · rw [← ea, ← eb]
        exact Nat.le_of_lt hlt
      · rw [← ea, ← eb, heq]
  · intro hle
    rw [retrieveRelevantChunks, List.take_of_length_le (by rw [hlen]; exact hle)]
    exact hsnd

/-- C2 witness: the retrieval contract evaluated at a concrete index
(15 utterances give three chunks) with `top_k = 2`. -/
theorem c2_witness :
    (retrieveRelevantChunks (indexConversation (msgsOf 15)) "who said hi" 2).length
      = min 2 (indexConversation (msgsOf 15)).length :=
  (c2_retrieve (msgsOf 15) "who said hi" 2).1
/-! ## Match evaluator (`ResilientAIEvaluator.evaluate_semantic_match`)

Scores are exact rationals standing for the Python floats; the claims
under test classify the score against literal thresholds, so the
comparison logic is shared by both models.
-/

def autoStopWords : List String :=
  ["the", "and", "or", "but", "in", "on", "at", "to", "for", "of", "with",
   "by", "is", "was", "are", "were", "has", "had", "have", "his", "her",
   "their", "this", "that", "they", "them", "will", "would", "could", "should"]

def semanticPairs : List (List String × List String) :=
  [(["terrified", "afraid"], ["phobia", "scared", "fearful", "frightened"]),
   (["dislikes", "hates"], ["doesnt", "like", "not", "fan"]),
   (["enjoys", "likes"], ["prefers", "loves", "into"]),
   (["nervous", "anxious"], ["worried", "stressed", "concerned"])]

/-- Models `re.sub(r'[^\w\s]', '', ground_truth.lower()).strip()`. -/
def truthClean (gt : String) : String :=
  pyStrip (cleanNonWord (pyLower gt))

/-- Backtracking search for the regex `^(hey \w+\s*according to.*?)`: try
the longest `\w+` run first (greedy), then skip `\s*` and require the
literal `according to`; the lazy `.*?` tail matches nothing.  Returns the
remainder after the matched prefix. -/
def greetAutoTry (run rest2 : List Char) : Nat → Option (List Char)
  | 0 => none
  | i + 1 =>
      match chompLit "according to".data ((run.drop (i + 1) ++ rest2).dropWhile isSpaceChar) with
      | some r => some r
      | none => greetAutoTry run rest2 i

/-- Models `re.sub(r'^(hey \w+\s*according to.*?)', '', s)`. -/
def stripGreetingAuto (s : String) : String :=
  match chompLit "hey ".data s.data with
  | none => s
  | some r1 =>
      match greetAutoTry (r1.takeWhile isWordChar) (r1.dropWhile isWordChar)
          (r1.takeWhile isWordChar).length with
      | none => s
      | some r => String.mk r

/-- Models `re.sub(r'\s*😊\s*$', '', s)`.  (After `[^\w\s]` removal the
emoji can no longer occur, so on the evaluator's inputs this is the
identity; it is modelled anyway.) -/
def stripEmojiTail (s : String) : String :=
  match (s.data.reverse.dropWhile isSpaceChar) with
  | c :: r2 =>
      if c = '😊' then String.mk ((r2.dropWhile isSpaceChar).reverse) else s
  | [] => s

/-- Models the answer-side normalisation of `evaluate_semantic_match`,
lines 80-86: lower-case, clean, strip, drop the greeting boilerplate,
drop a trailing emoji, strip again. -/
def responseClean (ans : String) : String :=
  pyStrip (stripEmojiTail (stripGreetingAuto (pyStrip (cleanNonWord (pyLower ans)))))

/-- Distinct words of length above 2 minus the stop-word set, as the
evaluator computes `truth_key_words` / `response_key_words`. -/
def keyWords (s : String) : List String :=
  (((pySplitWs s).filter (fun w => 2 < w.length)).dedup).filter
    (fun w => !(autoStopWords.contains w))

/-- Models the semantic-equivalence bonus loop: `0.3` per synonym-group
pair whose left set hits the cleaned truth and whose right set hits the
cleaned answer (substring tests on the cleaned strings). -/
def semanticBonus (tc rc : String) : ℚ :=
  semanticPairs.foldl
    (fun acc p =>
      if (p.1.any (fun w => strIn w tc)) && (p.2.any (fun w => strIn w rc)) then
        acc + 3/10
      else acc)
    0

/-- `truth_key_words` of the resilient evaluator. -/
def autoTruthKey (gt : String) : List String :=
  keyWords (truthClean gt)

/-- The overlap set `truth_key_words ∩ response_key_words`. -/
def autoOverlap (gt ans : String) : List String :=
  (autoTruthKey gt).filter (fun w => (keyWords (responseClean ans)).contains w)

/-- The final score: `min(1.0, overlap_ratio + semantic_bonus)`. -/
def autoTotalScore (gt ans : String) : ℚ :=
  min 1 (((autoOverlap gt ans).length : ℚ) / ((autoTruthKey gt).length : ℚ)
    + semanticBonus (truthClean gt) (responseClean ans))

/-- Models `ResilientAIEvaluator.evaluate_semantic_match`, returning the
verdict triple `(is_match, reason, confidence)`. -/
def evaluateSemanticMatch (gt ans : String) : Bool × String × ℚ :=
  if ans = "" ∨ strIn "failed after" (pyLower ans) = true then
    (false, "No valid response", 0)
  else if strIn (truthClean gt) (responseClean ans) = true then
    (true, "Exact substring match", 1)
  else if (autoTruthKey gt).isEmpty then
    (true, "Only common words in ground truth", 8/10)
  else if 9/10 ≤ autoTotalScore gt ans then
    (true, "Excellent match (" ++ toString (autoOverlap gt ans).length ++ "/"
      ++ toString (autoTruthKey gt).length ++ " + semantic)", autoTotalScore gt ans)
  else if 7/10 ≤ autoTotalScore gt ans then
    (true, "Good match (" ++ toString (autoOverlap gt ans).length ++ "/"
      ++ toString (autoTruthKey gt).length ++ " + semantic)", autoTotalScore gt ans)
  else if 1/2 ≤ autoTotalScore gt ans then
    (true, "Acceptable match (" ++ toString (autoOverlap gt ans).length ++ "/"
      ++ toString (autoTruthKey gt).length ++ " + partial semantic)", autoTotalScore gt ans)
  else if 3/10 ≤ autoTotalScore gt ans then
    (false, "Weak match (" ++ toString (autoOverlap gt ans).length ++ "/"
      ++ toString (autoTruthKey gt).length ++ ")", autoTotalScore gt ans)
  else
    (false, "No meaningful match", autoTotalScore gt ans)

/-! ## The fast evaluator variant (`FastAIEvaluator.smart_match`) -/

def fastStopWords : List String :=
  ["the", "a", "an", "and", "or", "but", "in", "on", "at", "to", "for",
   "of", "with", "by", "is", "was", "are", "were", "he", "she", "they",
   "his", "her", "their"]

/-- Models `re.sub(r'^(hey \w+\s+according to the knowledge graph\s*)', '', s)`:
after `hey `, a non-empty word run, at least one whitespace character,
the literal, then greedily consumed trailing whitespace. -/
def stripGreetingFast (s : String) : String :=
  match chompLit "hey ".data s.data with
  | none => s
  | some r1 =>
      if (r1.takeWhile isWordChar).isEmpty then s
      else if ((r1.dropWhile isWordChar).takeWhile isSpaceChar).isEmpty then s
      else
        match chompLit "according to the knowledge graph".data
            ((r1.dropWhile isWordChar).dropWhile isSpaceChar) with
        | none => s
        | some r => String.mk (r.dropWhile isSpaceChar)

/-- Models `re.sub(r'\s+😊$', '', s)`: a trailing emoji preceded by at
least one whitespace character.  (Dead after `[^\w\s]` removal, modelled
anyway.) -/
def stripEmojiTailFast (s : String) : String :=
  match s.data.reverse with
  | c :: r2 =>
      if c = '😊' && !((r2.takeWhile isSpaceChar).isEmpty) then
        String.mk ((r2.dropWhile isSpaceChar).reverse)
      else s
  | [] => s

/-- Answer-side normalisation of `smart_match`, lines 57-61 (note: no
final `strip`, and no length filter on words). -/
def fastResponseClean (ans : String) : String :=
  stripEmojiTailFast (stripGreetingFast (pyStrip (cleanNonWord (pyLower ans))))

/-- Distinct words minus the fast stop-word set (`smart_match` keeps
short words, unlike the resilient evaluator). -/
def fastKeyWords (s : String) : List String :=
  ((pySplitWs s).dedup).filter (fun w => !(fastStopWords.contains w))

def fastOverlap (gt ans : String) : List String :=
  (fastKeyWords (truthClean gt)).filter
    (fun w => (fastKeyWords (fastResponseClean ans)).contains w)

def fastRatio (gt ans : String) : ℚ :=
  ((fastOverlap gt ans).length : ℚ) / ((fastKeyWords (truthClean gt)).length : ℚ)

/-- Models `FastAIEvaluator.smart_match`: thresholds 0.8 / 0.6 / 0.4 and
no semantic bonus. -/
def smartMatch (gt ans : String) : Bool × String × ℚ :=
  if ans = "" ∨ strIn "having trouble responding" (pyLower ans) = true then
    (false, "No valid response", 0)
  else if strIn (truthClean gt) (fastResponseClean ans) = true then
    (true, "Exact match", 1)
  else if (fastKeyWords (truthClean gt)).isEmpty then
    (true, "Trivial match", 8/10)
  else if 8/10 ≤ fastRatio gt ans then
    (true, "Strong match (" ++ toString (fastOverlap gt ans).length ++ "/"
      ++ toString (fastKeyWords (truthClean gt)).length ++ " key words)", fastRatio gt ans)
  else if 6/10 ≤ fastRatio gt ans then
    (true, "Good match (" ++ toString (fastOverlap gt ans).length ++ "/"
      ++ toString (fastKeyWords (truthClean gt)).length ++ " key words)", fastRatio gt ans)
  else if 4/10 ≤ fastRatio gt ans then
    (false, "Partial match (" ++ toString (fastOverlap gt ans).length ++ "/"
      ++ toString (fastKeyWords (truthClean gt)).length ++ " key words)", fastRatio gt ans)
  else
    (false, "Weak match", fastRatio gt ans)

/-! ## Claims C3, C4, C5 -/

/-- C3: the match evaluator is a pure, deterministic function of the two
strings — identical arguments always yield the identical verdict triple. -/
theorem c3_deterministic (gt ans gt₂ ans₂ : String) (hg : gt = gt₂) (ha : ans = ans₂) :
    evaluateSemanticMatch gt ans = evaluateSemanticMatch gt₂ ans₂ := by
  rw [hg, ha]

/-- C3 witness: determinism at a concrete pair of arguments. -/
theorem c3_witness :
    evaluateSemanticMatch "Jake" "jake went camping"
      = evaluateSemanticMatch "Jake" "jake went camping" :=
  c3_deterministic "Jake" "jake went camping" "Jake" "jake went camping" rfl rfl

/-- Threshold table of the resilient evaluator: under the guards that the
answer is valid, no exact substring fires, and the truth retains key
words, the verdict is classified from the final score exactly as claim C4
states (0.9 / 0.7 / 0.5 / 0.3 cut-offs, match above 0.5). -/
theorem evaluateSemanticMatch_threshold_table (gt ans : String)
    (h1 : ans ≠ "") (h2 : strIn "failed after" (pyLower ans) = false)
    (h3 : strIn (truthClean gt) (responseClean ans) = false)
    (h4 : (autoTruthKey gt).isEmpty = false) :
    (9/10 ≤ autoTotalScore gt ans →
      evaluateSemanticMatch gt ans
        = (true, "Excellent match (" ++ toString (autoOverlap gt ans).length ++ "/"
            ++ toString (autoTruthKey gt).length ++ " + semantic)", autoTotalScore gt ans))
    ∧ (7/10 ≤ autoTotalScore gt ans ∧ autoTotalScore gt ans < 9/10 →
      evaluateSemanticMatch gt ans
        = (true, "Good match (" ++ toString (autoOverlap gt ans).length ++ "/"
            ++ toString (autoTruthKey gt).length ++ " + semantic)", autoTotalScore gt ans))
    ∧ (1/2 ≤ autoTotalScore gt ans ∧ autoTotalScore gt ans < 7/10 →
      evaluateSemanticMatch gt ans
        = (true, "Acceptable match (" ++ toString (autoOverlap gt ans).length ++ "/"
            ++ toString (autoTruthKey gt).length ++ " + partial semantic)", autoTotalScore gt ans))
    ∧ (3/10 ≤ autoTotalScore gt ans ∧ autoTotalScore gt ans < 1/2 →
      evaluateSemanticMatch gt ans
        = (false, "Weak match (" ++ toString (autoOverlap gt ans).length ++ "/"
            ++ toString (autoTruthKey gt).length ++ ")", autoTotalScore gt ans))
    ∧ (autoTotalScore gt ans < 3/10 →
      evaluateSemanticMatch gt ans = (false, "No meaningful match", autoTotalScore gt ans)) := by
  unfold evaluateSemanticMatch
  rw [if_neg (by simp [h1, h2]), if_neg (by simp [h3]), if_neg (by simp [h4])]
  refine ⟨?_, ?_, ?_, ?_, ?_⟩
  · intro h
    rw [if_pos h]
  · intro h
    rw [if_neg (by linarith [h.2]), if_pos h.1]
  · intro h
    rw [if_neg (by linarith [h.2]), if_neg (by linarith [h.2]), if_pos h.1]
  · intro h
    rw [if_neg (by linarith [h.2]), if_neg (by linarith [h.2]),
      if_neg (by linarith [h.2]), if_pos h.1]
  · intro h
    rw [if_neg (by linarith), if_neg (by linarith), if_neg (by linarith),
      if_neg (by linarith)]

/-- C4: the fast evaluator variant contradicts the claimed threshold
table.  On ground truth `"emma jake"` and answer `"emma went"` the final
score is exactly `1/2` — which the claim classifies as `match = true`
("acceptable") — yet `smart_match` returns `match = false` with reason
`"Partial match"`, because it uses cut-offs 0.8 / 0.6 / 0.4 and no
semantic bonus.  (The resilient evaluator does satisfy the claimed table;
see `evaluateSemanticMatch_threshold_table`.) -/
theorem c4_smartMatch_divergence :
    smartMatch "emma jake" "emma went" = (false, "Partial match (1/2 key words)", 1/2)
    ∧ 1/2 ≤ (smartMatch "emma jake" "emma went").2.2
    ∧ (smartMatch "emma jake" "emma went").1 = false := by
  refine ⟨?_, ?_, ?_⟩ <;> with_unfolding_all rfl

/-- C5 (amended): provided the answer is non-empty and does not contain
the failure sentinel `"failed after"` (which the evaluator checks first
and which short-circuits to `match = false`), a normalized ground truth
occurring as a substring of the normalized answer yields
`(true, "Exact substring match", 1.0)`. -/
theorem c5_amended (gt ans : String) (h1 : ans ≠ "")
    (h2 : strIn "failed after" (pyLower ans) = false)
    (h3 : strIn (truthClean gt) (responseClean ans) = true) :
    evaluateSemanticMatch gt ans = (true, "Exact substring match", 1) := by
  unfold evaluateSemanticMatch
  rw [if_neg (by simp [h1, h2]), if_pos h3]

/-- C5 counterexample: for ground truth `"failed"` and answer
`"failed after 5 attempts"` the normalized truth is a substring of the
normalized answer, yet the evaluator returns
`(false, "No valid response", 0.0)` — the sentinel guard runs before the
exact-substring check, so the claim as stated fails. -/
theorem c5_counterexample :
    strIn (truthClean "failed") (responseClean "failed after 5 attempts") = true
    ∧ evaluateSemanticMatch "failed" "failed after 5 attempts"
        = (false, "No valid response", 0) := by
  constructor
  · rfl
  · with_unfolding_all rfl

/-- C5 witness: the spec's own example — `evaluate("Jake", "hey emma jake
went camping 😊")` is an exact-substring match with confidence 1.0. -/
theorem c5_witness :
    evaluateSemanticMatch "Jake" "hey emma jake went camping 😊"
      = (true, "Exact substring match", 1) :=
  c5_amended "Jake" "hey emma jake went camping 😊" (by decide) (by decide) (by decide)

/-! ## Claim C6: the resilient call (`ask_ai_with_retry`)

The external service is modelled as a function from the attempt number to
the observable behaviour of one `POST` round-trip.  A 200 reply carries
the shape of its JSON body as far as
`data.get("aiResponse", {}).get("content", "")` and the following guard
inspect it: a body that is not a JSON object, or whose `aiResponse` value
is present but not an object, makes `.get` raise `AttributeError`; a
non-string truthy `content` value raises `AttributeError` at
`ai_response.lower()`; a falsy one fails the `if ai_response` guard and
retries.  None of these raises is caught by
`except requests.exceptions.RequestException`, and neither is the
`ValueError` from `int()` on a non-integer `retry-after` header.  (A 200
body that is not valid JSON at all raises
`requests.exceptions.JSONDecodeError` — a `RequestException` in a modern
`requests` — so it folds into `connErr`.)
-/

/-- C7 (amended): `load_conversation` never fails.  Loading from a
non-empty source from which no utterance can be extracted returns the
empty message list with no error, and loading from a missing file is
caught, printed, and likewise returns the empty list — the two cases are
indistinguishable in the result. -/
theorem c7_amended (content : String)
    (h : ∀ l ∈ pyLines content, parseLine l = none) :
    loadConversation (some content) = [] ∧ loadConversation none = [] := by
  constructor
  · exact List.filterMap_eq_nil_iff.mpr h
  · rfl

/-- C7 counterexample: the non-empty source `"hello world"` contains no
extractable utterance, yet loading yields the empty sequence rather than
failing with a `ParseError`; a missing file yields the same empty
sequence rather than a distinct `SourceNotFound`. -/
theorem c7_counterexample :
    loadConversation (some "hello world") = [] ∧ loadConversation none = [] := by
  constructor <;> rfl

/-- C7 witness: the amended statement applied to a concrete source whose
lines are comments or colon-free text. -/
theorem c7_witness :
    loadConversation (some "# header: x\njust words\n") = [] ∧ loadConversation none = [] :=
  c7_amended "# header: x\njust words\n" (by decide)
/-! ## Claim C8: orchestrator resumption (`QuestionEvaluator.evaluate_questions`)

The answering service behind `ask_ai_question` is modelled as a
deterministic function from the prompt to the reply string — the claim
compares two runs against the same service, so only its determinism
matters.  Wall-clock metadata fields (timestamps, timing averages) are
omitted; the timing-free metadata the code computes is kept, including
the `resumed_from_intermediate` flag that only the already-complete
branch writes.
-/

structure Question where
  prompt : String
  ground_truth : String
  memory_type : String
deriving DecidableEq

structure ResultEntry where
  question_number : Nat
  prompt : String
  memory_type : String
  ground_truth : String
  ai_response : String
  response_length : Nat
  contains_error : Bool
deriving DecidableEq

/-- Models `'Error:' in ai_response or 'timeout' in ai_response.lower()`. -/
def responseHasError (resp : String) : Bool :=
  strIn "Error:" resp || strIn "timeout" (pyLower resp)

/-- One loop iteration: the result dict stored for question `idx`
(0-based; the stored `question_number` is 1-based). -/
def mkResult (svc : String → String) (idx : Nat) (q : Question) : ResultEntry :=
  { question_number := idx + 1
    prompt := q.prompt
    memory_type := q.memory_type
    ground_truth := q.ground_truth
    ai_response := svc q.prompt
    response_length := (svc q.prompt).length
    contains_error := responseHasError (svc q.prompt) }

/-- The results the loop appends for questions from 0-based index `k`. -/
def resultsFrom (svc : String → String) : Nat → List Question → List ResultEntry
  | _, [] => []
  | k, q :: qs => mkResult svc k q :: resultsFrom svc (k + 1) qs

structure EvalMeta where
  total_questions : Nat
  successful_responses : Nat
  error_responses : Nat
  success_rate : ℚ
  resumed_from_intermediate : Bool
deriving DecidableEq

structure Report where
  meta : EvalMeta
  detailed_results : List ResultEntry
deriving DecidableEq

def countErrors (rs : List ResultEntry) : Nat :=
  (rs.filter (fun r => r.contains_error)).length

def mkMeta (totalQuestions : Nat) (rs : List ResultEntry) (resumed : Bool) : EvalMeta :=
  { total_questions := totalQuestions
    successful_responses := rs.length - countErrors rs
    error_responses := countErrors rs
    success_rate := ((rs.length - countErrors rs : Nat) : ℚ) / (totalQuestions : ℚ) * 100
    resumed_from_intermediate := resumed }

/-- Models `evaluate_questions`: `prior` is the `detailed_results` list of
a loaded intermediate file (`[]` when starting fresh, since the code then
initialises `results = []`), and the returned `none` models the bare
`return {}` taken when no questions load.  With a prior of `k` entries the
loop resumes at `start_question = k + 1`; when
`start_question > len(questions)` the already-complete branch rebuilds a
report around the loaded results unchanged, marked
`resumed_from_intermediate`. -/
def evaluateQuestions (svc : String → String) (prior : List ResultEntry)
    (questions : List Question) : Option Report :=
  if questions.isEmpty then none
  else if questions.length < prior.length + 1 then
    some ⟨mkMeta questions.length prior true, prior⟩
  else
    some ⟨mkMeta questions.length
        (prior ++ resultsFrom svc prior.length (questions.drop prior.length)) false,
      prior ++ resultsFrom svc prior.length (questions.drop prior.length)⟩

lemma resultsFrom_append (svc : String → String) (k : Nat) (xs ys : List Question) :
    resultsFrom svc k (xs ++ ys) = resultsFrom svc k xs ++ resultsFrom svc (k + xs.length) ys := by
  induction xs generalizing k with
  | nil => simp [resultsFrom]
  | cons x xs ih =>
      show mkResult svc k x :: resultsFrom svc (k + 1) (xs ++ ys)
        = mkResult svc k x :: resultsFrom svc (k + 1) xs ++ resultsFrom svc (k + (x :: xs).length) ys
      rw [ih (k + 1), List.length_cons,
        show k + 1 + xs.length = k + (xs.length + 1) from by omega]
      rfl

lemma resultsFrom_length (svc : String → String) (k : Nat) (qs : List Question) :
    (resultsFrom svc k qs).length = qs.length := by
  induction qs generalizing k with
  | nil => rfl
  | cons q qs ih => simp [resultsFrom, ih]

lemma resultsFrom_take (svc : String → String) (k : Nat) (qs : List Question)
    (hk : k ≤ qs.length) :
    (resultsFrom svc 0 qs).take k = resultsFrom svc 0 (qs.take k) := by
  have hsplit : resultsFrom svc 0 qs
      = resultsFrom svc 0 (qs.take k) ++ resultsFrom svc (0 + (qs.take k).length) (qs.drop k) := by
    rw [← resultsFrom_append, List.take_append_drop]
  rw [hsplit, List.take_append_of_le_length, List.take_of_length_le]
  · rw [resultsFrom_length, List.length_take]; omega
  · rw [resultsFrom_length, List.length_take]; omega

/-- C8 (amended): resumption preserves completed work but regenerates the
report envelope.  (a) Re-running on a prior report whose `detailed_results`
already cover all questions returns a report carrying those results
unchanged (while the metadata is rebuilt and marked
`resumed_from_intermediate`, so the report object itself is not the prior
one).  (b) Resuming from the first `k` results of an uninterrupted run
yields a final report whose `detailed_results` equal the uninterrupted
run's — in particular the first `k` entries coincide. -/
theorem c8_amended (svc : String → String) (questions : List Question) (k : Nat)
    (hk : k ≤ questions.length) :
    (questions ≠ [] → ∀ prior : List ResultEntry, questions.length ≤ prior.length →
      (evaluateQuestions svc prior questions).map Report.detailed_results = some prior)
    ∧ ((evaluateQuestions svc ((resultsFrom svc 0 questions).take k) questions).map
          Report.detailed_results
        = (evaluateQuestions svc [] questions).map Report.detailed_results) := by
  constructor
  · intro hne prior hlenp
    have h1 : ¬(questions.isEmpty = true) := by simpa using hne
    rw [evaluateQuestions, if_neg h1, if_pos (by omega)]
    rfl
  · by_cases hne : questions = []
    · subst hne
      rfl
    · have h1 : ¬(questions.isEmpty = true) := by simpa using hne
      have hq : 0 < questions.length := List.length_pos.mpr hne
      have hlen : ((resultsFrom svc 0 questions).take k).length = k := by
        rw [List.length_take, resultsFrom_length]
        omega
      have h3 : ¬(questions.length < ([] : List ResultEntry).length + 1) := by
        simp only [List.length_nil]
        omega
      rcases Nat.lt_or_ge k questions.length with hklt | hkge
      · have h2 : ¬(questions.length < ((resultsFrom svc 0 questions).take k).length + 1) := by
          rw [hlen]
          omega
        rw [evaluateQuestions, if_neg h1, if_neg h2, evaluateQuestions, if_neg h1, if_neg h3]
        simp only [Option.map_some, List.length_nil, List.drop_zero, List.nil_append, hlen]
        have hres : (resultsFrom svc 0 questions).take k ++ resultsFrom svc k (questions.drop k)
            = resultsFrom svc 0 questions := by
          rw [resultsFrom_take svc k questions hk]
          conv_rhs => rw [← List.take_append_drop k questions, resultsFrom_append]
          rw [List.length_take, Nat.zero_add, Nat.min_eq_left hk]
        rw [hres]
      · have hkeq : k = questions.length := by omega
        subst hkeq
        have h2 : questions.length
            < ((resultsFrom svc 0 questions).take questions.length).length + 1 := by
          rw [hlen]
          omega
        rw [evaluateQuestions, if_neg h1, if_pos h2, evaluateQuestions, if_neg h1, if_neg h3]
        simp only [Option.map_some, List.length_nil, List.drop_zero, List.nil_append]
        rw [List.take_of_length_le (Nat.le_of_eq (resultsFrom_length svc 0 questions))]
        rfl

/-- C8 counterexample: with a single question already completed, re-running
returns a report different from the existing one — the rebuilt metadata is
marked `resumed_from_intermediate := true` (and the code also regenerates
timestamps and zeroes the timing fields), so the re-run is not a no-op
returning the prior report unchanged. -/
theorem c8_counterexample :
    evaluateQuestions (fun _ => "ans")
        ((evaluateQuestions (fun _ => "ans") [] [⟨"p", "g", "t"⟩]).getD
          ⟨mkMeta 0 [] false, []⟩).detailed_results
        [⟨"p", "g", "t"⟩]
      ≠ evaluateQuestions (fun _ => "ans") [] [⟨"p", "g", "t"⟩] := by
  intro h
  have hL : (evaluateQuestions (fun _ => "ans")
        ((evaluateQuestions (fun _ => "ans") [] [⟨"p", "g", "t"⟩]).getD
          ⟨mkMeta 0 [] false, []⟩).detailed_results
        [⟨"p", "g", "t"⟩]).map (fun r => r.meta.resumed_from_intermediate) = some true := rfl
  have hR : (evaluateQuestions (fun _ => "ans") [] [⟨"p", "g", "t"⟩]).map
      (fun r => r.meta.resumed_from_intermediate) = some false := rfl
  rw [h, hR] at hL
  exact absurd hL (by decide)

/-- C8 witness: resuming after 1 of 2 questions reproduces exactly the
uninterrupted run's detailed results. -/
theorem c8_witness :
    (evaluateQuestions (fun p => p ++ "!")
        ((resultsFrom (fun p => p ++ "!") 0 [⟨"a", "g1", "t"⟩, ⟨"b", "g2", "t"⟩]).take 1)
        [⟨"a", "g1", "t"⟩, ⟨"b", "g2", "t"⟩]).map Report.detailed_results
      = (evaluateQuestions (fun p => p ++ "!") [] [⟨"a", "g1", "t"⟩, ⟨"b", "g2", "t"⟩]).map
          Report.detailed_results :=
  (c8_amended (fun p => p ++ "!") [⟨"a", "g1", "t"⟩, ⟨"b", "g2", "t"⟩] 1 (by decide)).2

/-! ## Claim C9: the chunk cache of `Architecture2_LLM_RAG.answer_question` -/

/-- Models the guard `if not self.conversation_chunks:
self.index_conversation(conversation_data)` — the chunk list used by the
rest of `answer_question` (and left behind in `self`). -/
def answerQuestionChunks (chunks : List Chunk) (conv : List Message) : List Chunk :=
  if chunks.isEmpty then indexConversation conv else chunks

/-- C9: once the cached chunk list is non-empty, `answer_question` never
re-indexes: the chunks are unchanged, independent of whichever transcript
store a later call passes, and retrieval works on the originally indexed
chunks. -/
theorem c9_cache (chunks : List Chunk) (h : chunks ≠ []) (conv conv₂ : List Message)
    (question : String) (topK : Nat) :
    answerQuestionChunks chunks conv = chunks
    ∧ answerQuestionChunks chunks conv = answerQuestionChunks chunks conv₂
    ∧ retrieveRelevantChunks (answerQuestionChunks chunks conv) question topK
        = retrieveRelevantChunks chunks question topK := by
  have he : chunks.isEmpty = false := by
    cases chunks with
    | nil => exact absurd rfl h
    | cons c cs => rfl
  refine ⟨?_, ?_, ?_⟩ <;> simp [answerQuestionChunks, he]

/-- C9 witness: a cache indexed from one transcript is reused untouched
when a later call passes a different transcript. -/
theorem c9_witness :
    answerQuestionChunks (indexConversation (msgsOf 15)) (msgsOf 3) = indexConversation (msgsOf 15) :=
  (c9_cache (indexConversation (msgsOf 15)) (by decide) (msgsOf 3) [] "q" 5).1

/-! ## Claim C10: the CSV question loader
(`QuestionEvaluator.load_questions_from_csv`)

A parsed CSV row is modelled as the association list `csv.DictReader`
yields; `row.get(k)` is the lookup, and Python's `or` chain takes the
first non-`None`, non-empty value. -/

def Row : Type :=
  List (String × String)

/-- Python `a or b` for an optional string `a`: `None` and `""` fall
through. -/
def rowGetOr (row : Row) : List String → String → String
  | [], dflt => dflt
  | key :: keys, dflt =>
      match List.lookup key row with
      | some v => if v = "" then rowGetOr row keys dflt else v
      | none => rowGetOr row keys dflt

def promptKeys : List String :=
  ["Prompt", "Question", "prompt", "question"]

def answerKeys : List String :=
  ["Ground Truth Answer", "Answer", "ground_truth", "answer"]

def typeKeys : List String :=
  ["Memory Type", "Type", "memory_type", "type"]

/-- The stripped prompt field of a row. -/
def rowPrompt (row : Row) : String :=
  pyStrip (rowGetOr row promptKeys "")

/-- The stripped ground-truth field of a row. -/
def rowTruth (row : Row) : String :=
  pyStrip (rowGetOr row answerKeys "")

/-- Models the row loop of `load_questions_from_csv`: rows whose stripped
prompt or ground truth is empty are skipped silently. -/
def loadQuestionsFromCsv (rows : List Row) : List Question :=
  rows.filterMap (fun row =>
    if rowPrompt row = "" ∨ rowTruth row = "" then none
    else some ⟨rowPrompt row, rowTruth row, pyStrip (rowGetOr row typeKeys "Unknown")⟩)

/-- C10: every question the CSV loader returns has a non-empty prompt and
a non-empty ground truth, and a row whose prompt or ground-truth field is
missing or blank after stripping is silently dropped — prepending such a
row leaves the loaded list unchanged, with no error reported. -/
theorem c10_loader (rows : List Row) :
    (∀ q ∈ loadQuestionsFromCsv rows, q.prompt ≠ "" ∧ q.ground_truth ≠ "")
    ∧ (∀ row : Row, rowPrompt row = "" ∨ rowTruth row = "" →
        loadQuestionsFromCsv (row :: rows) = loadQuestionsFromCsv rows) := by
  constructor
  · intro q hq
    rw [loadQuestionsFromCsv, List.mem_filterMap] at hq
    obtain ⟨row, _, hrow⟩ := hq
    by_cases hblank : rowPrompt row = "" ∨ rowTruth row = ""
    · rw [if_pos hblank] at hrow
      exact absurd hrow (by simp)
    · rw [if_neg hblank] at hrow
      push_neg at hblank
      cases hrow
      exact hblank
  · intro row hblank
    rw [loadQuestionsFromCsv, List.filterMap_cons, if_pos hblank]
    rfl

/-- C10 witness: a row with a blank prompt is dropped, and the questions
loaded from the remaining rows have non-empty prompts and truths. -/
theorem c10_witness :
    loadQuestionsFromCsv [[("Prompt", "   ")], [("Prompt", "Who went camping?"), ("Answer", "Jake")]]
      = loadQuestionsFromCsv [[("Prompt", "Who went camping?"), ("Answer", "Jake")]] :=
  (c10_loader [[("Prompt", "Who went camping?"), ("Answer", "Jake")]]).2
    [("Prompt", "   ")] (Or.inl (by decide))
